import Mathlib

/-!
Verification of the MovieLens recommendation system.

The repository ships the React client (src/App.jsx) and a README that
documents the backend pipeline. The Python/Flask backend itself (catalog
builder, preference interpreter, scorer, ranker) is not among the sources,
so those components are modelled from the spec; the client-side
definitions are translated directly from src/App.jsx.
-/

namespace RecSys

/-- Modelled from the spec: catalog Item record (section 3); the backend
catalog builder source is not in the repository. Fields: identifier,
title, optional release year, set of genre tags. -/
structure Item where
  ident : Nat
  title : String
  year : Option Nat
  genres : Finset String

/-- Modelled from the spec: per-item RatingAggregate (section 3): mean
rating and non-negative rating count. The stored mean is meaningful only
when the count is positive. -/
structure RatingAggregate where
  meanRating : ℚ
  ratingCount : Nat

/-- Modelled from the spec: a catalog entry joins an Item with its
RatingAggregate; the Catalog is an order-stable listing of entries. -/
structure CatalogEntry where
  item : Item
  agg : RatingAggregate

abbrev Catalog := List CatalogEntry

/-- Modelled from the spec: Scorer genre-overlap fraction (section 4.3):
cardinality of the intersection over max 1 of the matched-set size when
the matched set is non-empty, and the small constant baseline 1/10 when
it is empty. -/
def overlap (it : Item) (matched : Finset String) : ℚ :=
  if matched = ∅ then 1/10
  else ((it.genres ∩ matched).card : ℚ) / ((max 1 matched.card : ℕ) : ℚ)

/-- Modelled from the spec: Scorer quality factor (section 4.3): mean
rating divided by 5 when the rating count is positive, and the neutral
constant 1/2 when the count is 0 (undefined mean). -/
def quality (agg : RatingAggregate) : ℚ :=
  if agg.ratingCount = 0 then 1/2 else agg.meanRating / 5

/-- Modelled from the spec: Scorer popularity bonus (section 4.3): a
small monotonically increasing damped function of the rating count,
capped at 1/10 of the total score. -/
def popularityBonus (count : Nat) : ℚ :=
  min ((count : ℚ) / ((count : ℚ) + 10) / 10) (1/10)

/-- Modelled from the spec: the unclamped Scorer combination (section
4.3): overlap times quality plus popularity bonus. -/
def rawScore (it : Item) (agg : RatingAggregate) (matched : Finset String) : ℚ :=
  overlap it matched * quality agg + popularityBonus agg.ratingCount

/-- Modelled from the spec: the final Scorer score (section 4.3), the
raw combination clamped to the finite non-negative range from 0 to
11/10. -/
def score (it : Item) (agg : RatingAggregate) (matched : Finset String) : ℚ :=
  min (max (rawScore it agg matched) 0) (11/10)

lemma overlap_nonneg (it : Item) (matched : Finset String) : 0 ≤ overlap it matched := by
  unfold overlap
  split
  · norm_num
  · exact div_nonneg (Nat.cast_nonneg _) (Nat.cast_nonneg _)

lemma overlap_le_one (it : Item) (matched : Finset String) : overlap it matched ≤ 1 := by
  unfold overlap
  split
  · norm_num
  · rw [div_le_one (by positivity)]
    have h1 : (it.genres ∩ matched).card ≤ matched.card :=
      Finset.card_le_card Finset.inter_subset_right
    have h2 : matched.card ≤ max 1 matched.card := le_max_right _ _
    exact_mod_cast le_trans h1 h2

lemma quality_nonneg (agg : RatingAggregate) (h0 : 0 ≤ agg.meanRating) :
    0 ≤ quality agg := by
  unfold quality
  split
  · norm_num
  · positivity

lemma quality_le_one (agg : RatingAggregate) (h5 : agg.meanRating ≤ 5) :
    quality agg ≤ 1 := by
  unfold quality
  split
  · norm_num
  · rw [div_le_one (by norm_num)]
    exact h5

lemma popularityBonus_nonneg (count : Nat) : 0 ≤ popularityBonus count := by
  unfold popularityBonus
  apply le_min
  · positivity
  · norm_num

lemma popularityBonus_le (count : Nat) : popularityBonus count ≤ 1/10 :=
  min_le_right _ _

lemma rawScore_nonneg (it : Item) (agg : RatingAggregate) (matched : Finset String)
    (h0 : 0 ≤ agg.meanRating) : 0 ≤ rawScore it agg matched :=
  add_nonneg (mul_nonneg (overlap_nonneg it matched) (quality_nonneg agg h0))
    (popularityBonus_nonneg _)

lemma rawScore_le (it : Item) (agg : RatingAggregate) (matched : Finset String)
    (h0 : 0 ≤ agg.meanRating) (h5 : agg.meanRating ≤ 5) :
    rawScore it agg matched ≤ 11/10 := by
  have hm : overlap it matched * quality agg ≤ 1 :=
    mul_le_one₀ (overlap_le_one it matched) (quality_nonneg agg h0) (quality_le_one agg h5)
  have := popularityBonus_le agg.ratingCount
  unfold rawScore
  linarith

lemma score_eq_rawScore (it : Item) (agg : RatingAggregate) (matched : Finset String)
    (h0 : 0 ≤ agg.meanRating) (h5 : agg.meanRating ≤ 5) :
    score it agg matched = rawScore it agg matched := by
  unfold score
  rw [max_eq_left (rawScore_nonneg it agg matched h0),
    min_eq_left (rawScore_le it agg matched h0 h5)]

/-- Claim C1: for every item, rating aggregate with mean in the valid
0 to 5 range, and matched-genre set, the final Scorer score equals
overlap times quality plus popularity bonus, and it lies in the finite
non-negative range from 0 to 11/10. -/
theorem scorer_final_formula (it : Item) (agg : RatingAggregate) (matched : Finset String)
    (h0 : 0 ≤ agg.meanRating) (h5 : agg.meanRating ≤ 5) :
    score it agg matched
      = overlap it matched * quality agg + popularityBonus agg.ratingCount ∧
    0 ≤ score it agg matched ∧ score it agg matched ≤ 11/10 := by
  have he := score_eq_rawScore it agg matched h0 h5
  refine ⟨he, ?_, ?_⟩
  · rw [he]; exact rawScore_nonneg it agg matched h0
  · rw [he]; exact rawScore_le it agg matched h0 h5

theorem scorer_final_formula_check :
    (0 : ℚ) ≤ 4 ∧ (4 : ℚ) ≤ 5 ∧
    (score ⟨1, "A", none, ∅⟩ ⟨4, 3⟩ ∅
      = overlap ⟨1, "A", none, ∅⟩ ∅ * quality ⟨4, 3⟩ + popularityBonus 3 ∧
    0 ≤ score ⟨1, "A", none, ∅⟩ ⟨4, 3⟩ ∅ ∧
    score ⟨1, "A", none, ∅⟩ ⟨4, 3⟩ ∅ ≤ 11/10) :=
  ⟨by norm_num, by norm_num,
    scorer_final_formula ⟨1, "A", none, ∅⟩ ⟨4, 3⟩ ∅ (by norm_num) (by norm_num)⟩

/-- Claim C4: when the rating count is 0, the quality factor is the
neutral constant 1/2 whatever mean is stored, and the final score does
not depend on the stored mean at all. -/
theorem unrated_item_neutral :
    (∀ m : ℚ, quality ⟨m, 0⟩ = 1/2) ∧
    (∀ (it : Item) (m₁ m₂ : ℚ) (g : Finset String),
      score it ⟨m₁, 0⟩ g = score it ⟨m₂, 0⟩ g) := by
  constructor
  · intro m
    simp [quality]
  · intro it m₁ m₂ g
    simp [score, rawScore, quality]

/-- Claim C8: with the same rating aggregate (hence the same quality
factor and rating count) and a mean in the valid range, an item with a
larger genre-overlap fraction never receives a strictly lower score. -/
theorem score_monotone_in_overlap (a b : Item) (agg : RatingAggregate)
    (g : Finset String) (h0 : 0 ≤ agg.meanRating)
    (hov : overlap a g ≤ overlap b g) :
    score a agg g ≤ score b agg g := by
  have hq : 0 ≤ quality agg := quality_nonneg agg h0
  have hraw : rawScore a agg g ≤ rawScore b agg g := by
    unfold rawScore
    have := mul_le_mul_of_nonneg_right hov hq
    linarith
  unfold score
  exact min_le_min (max_le_max hraw le_rfl) le_rfl

theorem score_monotone_in_overlap_check :
    (0 : ℚ) ≤ 3 ∧
    overlap ⟨1, "A", none, {"Action"}⟩ {"Action"} ≤ overlap ⟨2, "B", none, {"Action"}⟩ {"Action"} ∧
    score ⟨1, "A", none, {"Action"}⟩ ⟨3, 7⟩ {"Action"}
      ≤ score ⟨2, "B", none, {"Action"}⟩ ⟨3, 7⟩ {"Action"} :=
  ⟨by norm_num, le_rfl,
    score_monotone_in_overlap ⟨1, "A", none, {"Action"}⟩ ⟨2, "B", none, {"Action"}⟩
      ⟨3, 7⟩ {"Action"} (by norm_num) le_rfl⟩

/-- Modelled from the spec: text normalization of the preference
interpreter (section 4.2): lower-case the input and strip punctuation,
keeping alphanumeric characters and spaces. -/
def lowerChar (c : Char) : Char :=
  if 65 ≤ c.toNat ∧ c.toNat ≤ 90 then Char.ofNat (c.toNat + 32) else c

def keepChar (c : Char) : Bool :=
  c.isAlphanum || c == ' '

def normalize (t : String) : List Char :=
  (t.toList.map lowerChar).filter keepChar

/-- Character-list prefix test used by the substring matcher. -/
def leadMatch : List Char → List Char → Bool
  | [], _ => true
  | _ :: _, [] => false
  | a :: as, b :: bs => a == b && leadMatch as bs

/-- Substring occurrence test: does the pattern occur contiguously in
the text. -/
def occursIn (p : List Char) : List Char → Bool
  | [] => leadMatch p []
  | b :: bs => leadMatch p (b :: bs) || occursIn p bs

/-- Modelled from the spec: the fixed keyword-to-genre lexicon (section
3), an ordered list of phrase and tag-set pairs checked longest phrase
first; the backend copy of the lexicon is not in the repository. -/
def lexicon : List (String × List String) :=
  [("science fiction", ["Science Fiction"]),
   ("documentary", ["Documentary"]),
   ("adventure", ["Adventure"]),
   ("animation", ["Animation"]),
   ("hilarious", ["Comedy"]),
   ("animated", ["Animation"]),
   ("romantic", ["Romance"]),
   ("thriller", ["Thriller"]),
   ("fantasy", ["Fantasy"]),
   ("musical", ["Musical"]),
   ("mystery", ["Mystery"]),
   ("romance", ["Romance"]),
   ("western", ["Western"]),
   ("action", ["Action"]),
   ("comedy", ["Comedy"]),
   ("family", ["Childrens"]),
   ("horror", ["Horror"]),
   ("sci-fi", ["Science Fiction"]),
   ("crime", ["Crime"]),
   ("drama", ["Drama"]),
   ("funny", ["Comedy"]),
   ("scary", ["Horror"]),
   ("scifi", ["Science Fiction"]),
   ("space", ["Science Fiction"]),
   ("kids", ["Childrens"]),
   ("war", ["War"])]

/-- Modelled from the spec: the preference interpreter (section 4.2):
union the tag sets of every lexicon entry whose normalized phrase occurs
in the normalized input; no match yields the empty set, not an error. -/
def interpret (text : String) : Finset String :=
  (lexicon.filter (fun e => occursIn (normalize e.1) (normalize text))).foldr
    (fun e acc => e.2.toFinset ∪ acc) ∅

/-- True when no lexicon phrase occurs in the normalized text. -/
def noKeyword (text : String) : Bool :=
  lexicon.all (fun e => !(occursIn (normalize e.1) (normalize text)))

/-- Modelled from the spec: the per-request ScoredItem record (sections
3 and 6): item metadata joined with the aggregate statistics, the
numeric score and the generated reason string. -/
structure ScoredItem where
  ident : Nat
  title : String
  year : Option Nat
  genres : Finset String
  meanRating : ℚ
  ratingCount : Nat
  score : ℚ
  reason : String

/-- Modelled from the spec: the reason string (section 4.3): names the
genre signal when the matched set is non-empty, otherwise states that
the recommendation is based on overall popularity and quality. -/
def reasonFor (it : Item) (matched : Finset String) : String :=
  if matched = ∅ then "Recommended based on overall popularity and quality"
  else if it.genres ∩ matched = ∅ then "Ranked by rating quality; no direct genre match"
  else "Matches your preferred genres"

/-- Modelled from the spec: scoring one catalog entry (section 4.4). -/
def scoreEntry (matched : Finset String) (e : CatalogEntry) : ScoredItem :=
  { ident := e.item.ident
    title := e.item.title
    year := e.item.year
    genres := e.item.genres
    meanRating := e.agg.meanRating
    ratingCount := e.agg.ratingCount
    score := score e.item e.agg matched
    reason := reasonFor e.item matched }

/-- Modelled from the spec: the ranker order (section 4.4): descending
by score, ties broken by descending rating count, then by ascending
identifier. -/
def rankLE (a b : ScoredItem) : Prop :=
  b.score < a.score ∨ (a.score = b.score ∧
    (b.ratingCount < a.ratingCount ∨
      (a.ratingCount = b.ratingCount ∧ a.ident ≤ b.ident)))

instance : DecidableRel rankLE := fun a b => by
  unfold rankLE
  exact inferInstance

instance : IsTotal ScoredItem rankLE := by
  constructor
  intro a b
  unfold rankLE
  rcases lt_trichotomy a.score b.score with h | h | h
  · exact Or.inr (Or.inl h)
  · rcases lt_trichotomy a.ratingCount b.ratingCount with h2 | h2 | h2
    · exact Or.inr (Or.inr ⟨h.symm, Or.inl h2⟩)
    · rcases le_total a.ident b.ident with h3 | h3
      · exact Or.inl (Or.inr ⟨h, Or.inr ⟨h2, h3⟩⟩)
      · exact Or.inr (Or.inr ⟨h.symm, Or.inr ⟨h2.symm, h3⟩⟩)
    · exact Or.inl (Or.inr ⟨h, Or.inl h2⟩)
  · exact Or.inl (Or.inl h)

instance : IsTrans ScoredItem rankLE := by
  constructor
  intro a b c hab hbc
  unfold rankLE at *
  rcases hab with h1 | ⟨e1, h1⟩
  · rcases hbc with h2 | ⟨e2, h2⟩
    · exact Or.inl (lt_trans h2 h1)
    · exact Or.inl (e2 ▸ h1)
  · rcases hbc with h2 | ⟨e2, h2⟩
    · exact Or.inl (e1 ▸ h2)
    · refine Or.inr ⟨e1.trans e2, ?_⟩
      rcases h1 with h1 | ⟨f1, h1⟩
      · rcases h2 with h2 | ⟨f2, h2⟩
        · exact Or.inl (lt_trans h2 h1)
        · exact Or.inl (f2 ▸ h1)
      · rcases h2 with h2 | ⟨f2, h2⟩
        · exact Or.inl (f1 ▸ h2)
        · exact Or.inr ⟨f1.trans f2, le_trans h1 h2⟩

/-- Modelled from the spec: the ranker (section 4.4): score every
catalog entry, sort by the deterministic total order, return the first
k entries. -/
def rank (c : Catalog) (matched : Finset String) (k : Nat) : List ScoredItem :=
  (List.insertionSort rankLE (c.map (scoreEntry matched))).take k

/-- Modelled from the spec: the recommend operation (section 6):
interpret the preference text, then rank the catalog. -/
def recommend (c : Catalog) (text : String) (k : Nat) : List ScoredItem :=
  rank c (interpret text) k

lemma length_rank (c : Catalog) (matched : Finset String) (k : Nat) :
    (rank c matched k).length = min k c.length := by
  unfold rank
  rw [List.length_take, List.length_insertionSort, List.length_map]

lemma length_recommend (c : Catalog) (text : String) (k : Nat) :
    (recommend c text k).length = min k c.length :=
  length_rank c (interpret text) k

/-- Claim C2: for every catalog, preference text and k, the recommend
output has length min k (catalog length); in particular k = 0 yields the
empty sequence, and a catalog shorter than k is returned whole. -/
theorem recommend_bounded_output (c : Catalog) (text : String) (k : Nat) :
    (recommend c text k).length = min k c.length ∧ recommend c text 0 = [] := by
  refine ⟨length_recommend c text k, ?_⟩
  unfold recommend rank
  exact List.take_zero _

/-- Claim C3: recommend is deterministic: equal catalogs, equal
preference texts and equal k give identical output sequences. -/
theorem recommend_deterministic (c₁ c₂ : Catalog) (t₁ t₂ : String) (k₁ k₂ : Nat)
    (hc : c₁ = c₂) (ht : t₁ = t₂) (hk : k₁ = k₂) :
    recommend c₁ t₁ k₁ = recommend c₂ t₂ k₂ := by
  rw [hc, ht, hk]

theorem recommend_deterministic_check :
    recommend [] "action" 5 = recommend [] "action" 5 :=
  recommend_deterministic [] [] "action" "action" 5 5 rfl rfl rfl

/-- Claim C6: every rank output is sorted by the ranker order
(descending score, then descending rating count, then ascending
identifier); that order is total, and two items comparing equal in both
directions agree on score, rating count and identifier, so items with
distinct identifiers never tie. -/
theorem rank_sorted_total_order :
    (∀ (c : Catalog) (matched : Finset String) (k : Nat),
      List.Sorted rankLE (rank c matched k)) ∧
    (∀ a b : ScoredItem, rankLE a b ∨ rankLE b a) ∧
    (∀ a b : ScoredItem, rankLE a b → rankLE b a →
      a.score = b.score ∧ a.ratingCount = b.ratingCount ∧ a.ident = b.ident) := by
  refine ⟨?_, ?_, ?_⟩
  · intro c matched k
    exact List.Pairwise.sublist (List.take_sublist k _)
      (List.sorted_insertionSort rankLE (c.map (scoreEntry matched)))
  · intro a b
    exact total_of rankLE a b
  · intro a b hab hba
    unfold rankLE at hab hba
    rcases hab with h1 | ⟨e1, h1⟩
    · rcases hba with h2 | ⟨e2, h2⟩
      · exact absurd h1 (lt_asymm h2)
      · exact absurd h1 (e2 ▸ lt_irrefl _)
    · rcases hba with h2 | ⟨e2, h2⟩
      · exact absurd h2 (e1 ▸ lt_irrefl _)
      · refine ⟨e1, ?_⟩
        rcases h1 with h1 | ⟨f1, h1⟩
        · rcases h2 with h2 | ⟨f2, h2⟩
          · exact absurd h1 (lt_asymm h2)
          · exact absurd h1 (f2 ▸ lt_irrefl _)
        · rcases h2 with h2 | ⟨f2, h2⟩
          · exact absurd h2 (f1 ▸ lt_irrefl _)
          · exact ⟨f1, le_antisymm h1 h2⟩

theorem rank_sorted_total_order_check :
    (⟨1, "A", none, ∅, 0, 0, 0, ""⟩ : ScoredItem).score
        = (⟨1, "A", none, ∅, 0, 0, 0, ""⟩ : ScoredItem).score ∧
    (⟨1, "A", none, ∅, 0, 0, 0, ""⟩ : ScoredItem).ratingCount
        = (⟨1, "A", none, ∅, 0, 0, 0, ""⟩ : ScoredItem).ratingCount ∧
    (⟨1, "A", none, ∅, 0, 0, 0, ""⟩ : ScoredItem).ident
        = (⟨1, "A", none, ∅, 0, 0, 0, ""⟩ : ScoredItem).ident :=
  rank_sorted_total_order.2.2 _ _
    (Or.inr ⟨rfl, Or.inr ⟨rfl, le_rfl⟩⟩) (Or.inr ⟨rfl, Or.inr ⟨rfl, le_rfl⟩⟩)

/-- Claim C7: when no lexicon keyword occurs in the preference text,
interpret returns the empty genre set, and on a non-empty catalog with
k at least 1 the recommend output is still non-empty: items fall back to
the popularity and quality baseline instead of all being dropped. -/
theorem no_signal_fallback (c : Catalog) (text : String) (k : Nat)
    (hnk : noKeyword text = true) (hc : c ≠ []) (hk : 1 ≤ k) :
    interpret text = ∅ ∧ recommend c text k ≠ [] := by
  have hfilter :
      lexicon.filter (fun e => occursIn (normalize e.1) (normalize text)) = [] := by
    rw [List.filter_eq_nil_iff]
    intro e he
    have := (List.all_eq_true.mp hnk) e he
    simpa using this
  constructor
  · unfold interpret
    rw [hfilter]
    rfl
  · have hlen : (recommend c text k).length = min k c.length :=
      length_recommend c text k
    have hpos : 0 < min k c.length :=
      lt_min (lt_of_lt_of_le Nat.zero_lt_one hk) (List.length_pos.mpr hc)
    exact List.length_pos.mp (hlen ▸ hpos)

def sampleCatalog : Catalog :=
  [⟨⟨1, "Alien", some 1979, {"Science Fiction", "Horror"}⟩, ⟨4, 100⟩⟩]

theorem no_signal_fallback_check :
    noKeyword "zzzz qqq" = true ∧ sampleCatalog ≠ [] ∧ 1 ≤ 2 ∧
    (interpret "zzzz qqq" = ∅ ∧ recommend sampleCatalog "zzzz qqq" 2 ≠ []) :=
  ⟨by decide, by simp [sampleCatalog], by decide,
    no_signal_fallback sampleCatalog "zzzz qqq" 2 (by decide)
      (by simp [sampleCatalog]) (by decide)⟩

/-- Client state relevant to getRecommendations in src/App.jsx: the
recommendations list and the loading flag. -/
structure ClientState where
  recommendations : List String
  loading : Bool

/-- Outcome of the fetch in getRecommendations: either the fetch or the
json parse throws, or a parsed body arrives with an optional error field
and an optional recommendations field. -/
inductive FetchOutcome where
  | throws : FetchOutcome
  | ok : Option String → Option (List String) → FetchOutcome

/-- JavaScript truthiness of an optional string field: absent or the
empty string is falsy, any other string is truthy. -/
def jsTruthy : Option String → Bool
  | none => false
  | some s => !(s == "")

/-- The guard prefs.trim() of src/App.jsx line 44: the trimmed string is
empty exactly when every character of the input is whitespace. -/
def isBlank (s : String) : Bool :=
  s.toList.all (fun c => c.isWhitespace)

/-- Translated from src/App.jsx lines 43 to 75: getRecommendations
returns without dispatching when the trimmed preference text is empty;
otherwise it dispatches the request and, on a thrown error or a truthy
error field, stores the empty list, else stores the recommendations
field defaulted to the empty list; the finally block always resets
loading to false. The Bool result records whether a request was
dispatched. -/
def getRecommendations (prefs : String) (outcome : FetchOutcome)
    (st : ClientState) : ClientState × Bool :=
  if isBlank prefs then (st, false)
  else
    match outcome with
    | .throws => ({ recommendations := [], loading := false }, true)
    | .ok err recs =>
      if jsTruthy err then ({ recommendations := [], loading := false }, true)
      else ({ recommendations := recs.getD [], loading := false }, true)

/-- Claim C5: with blank (empty or whitespace-only) preference text,
getRecommendations dispatches no request and leaves the client state,
including the recommendations list, unchanged, so the system yields zero
new recommendations and no error. -/
theorem blank_input_no_request (prefs : String) (outcome : FetchOutcome)
    (st : ClientState) (h : isBlank prefs = true) :
    getRecommendations prefs outcome st = (st, false) := by
  unfold getRecommendations
  simp [h]

theorem blank_input_no_request_check :
    isBlank "   " = true ∧
    getRecommendations "   " FetchOutcome.throws ⟨["old"], false⟩
      = (⟨["old"], false⟩, false) :=
  ⟨by decide, blank_input_no_request "   " FetchOutcome.throws ⟨["old"], false⟩ (by decide)⟩

/-- Counterexample to claim C9 as stated: the response body contains an
error field (the empty string) together with a recommendations field;
the empty string is falsy in JavaScript, so the code takes the else
branch and stores the recommendations instead of the empty list. -/
theorem error_field_not_cleared :
    (getRecommendations "action" (FetchOutcome.ok (some "") (some ["Heat"]))
      ⟨[], false⟩).1.recommendations = ["Heat"] := by
  simp [getRecommendations, isBlank, jsTruthy]

/-- Claim C9 (amended): every run of getRecommendations with non-blank
preference text dispatches a request and ends with loading false, and
whenever the fetch throws, the response carries a truthy (non-empty)
error field, or the response lacks a recommendations field, the stored
recommendations list is the empty list. -/
theorem request_run_postcondition (prefs : String) (outcome : FetchOutcome)
    (st : ClientState) (h : isBlank prefs = false) :
    (getRecommendations prefs outcome st).2 = true ∧
    (getRecommendations prefs outcome st).1.loading = false ∧
    ((outcome = FetchOutcome.throws ∨
      (∃ e r, outcome = FetchOutcome.ok e r ∧ jsTruthy e = true) ∨
      (∃ e, outcome = FetchOutcome.ok e none)) →
      (getRecommendations prefs outcome st).1.recommendations = []) := by
  cases outcome with
  | throws => simp [getRecommendations, h]
  | ok err recs =>
    by_cases ht : jsTruthy err = true
    · simp [getRecommendations, h, ht]
    · have ht2 : jsTruthy err = false := by
        simpa using ht
      refine ⟨?_, ?_, ?_⟩
      · simp [getRecommendations, h, ht2]
      · simp [getRecommendations, h, ht2]
      · intro hcase
        rcases hcase with hcase | ⟨e, r, heq, htr⟩ | ⟨e, heq⟩
        · exact absurd hcase (by simp)
        · cases heq
          exact absurd htr ht
        · cases heq
          simp [getRecommendations, h, ht2]

theorem request_run_postcondition_check :
    isBlank "action" = false ∧
    ((getRecommendations "action" FetchOutcome.throws ⟨["old"], true⟩).2 = true ∧
    (getRecommendations "action" FetchOutcome.throws ⟨["old"], true⟩).1.loading = false ∧
    ((FetchOutcome.throws = FetchOutcome.throws ∨
      (∃ e r, FetchOutcome.throws = FetchOutcome.ok e r ∧ jsTruthy e = true) ∨
      (∃ e, FetchOutcome.throws = FetchOutcome.ok e none)) →
      (getRecommendations "action" FetchOutcome.throws ⟨["old"], true⟩).1.recommendations = [])) :=
  ⟨by decide, request_run_postcondition "action" FetchOutcome.throws ⟨["old"], true⟩ (by decide)⟩

/-- Translated from src/App.jsx lines 77 to 84: renderStars builds five
star elements from Array(5) and marks the star at index i filled exactly
when i is less than the rating. -/
def renderStars (rating : ℚ) : List Bool :=
  (List.range 5).map (fun i : ℕ => decide ((i : ℚ) < rating))

/-- Claim C10: renderStars returns exactly five elements for every
rating, and the element at index i (0-based, i below 5) is filled if and
only if i is less than the rating; out-of-range ratings still give five
elements. -/
theorem renderStars_spec (rating : ℚ) :
    (renderStars rating).length = 5 ∧
    ∀ i : Nat, i < 5 →
      ((renderStars rating).getD i false = true ↔ (i : ℚ) < rating) := by
  constructor
  · unfold renderStars
    rw [List.length_map, List.length_range]
  · intro i hi
    interval_cases i <;>
      simp [renderStars, List.getD, List.range_succ]

theorem renderStars_spec_check :
    (renderStars (7/2)).length = 5 ∧
    ((renderStars (7/2)).getD 3 false = true ↔ ((3 : Nat) : ℚ) < 7/2) :=
  ⟨(renderStars_spec (7/2)).1, (renderStars_spec (7/2)).2 3 (by decide)⟩

end RecSys
